import Mathlib

set_option maxRecDepth 8000

/-!
Verification development for the Vulkan renderer caches of the yuzu
emulator snapshot: the streaming buffer cache (vk_buffer_cache.cpp), the
pipeline cache (vk_pipeline_cache.cpp), the surface/texture cache
(vk_texture_cache.cpp) and the shader decompiler's control-flow analysis
(vk_shader_decompiler.cpp).  Machine integers are modelled as `Nat`; the
source arithmetic involved never overflows on the inputs considered.
Definitions translate the C++ directly; functions declared in headers that
are absent from the snapshot are modelled from the specification and are
marked `Modelled from the spec:` in their doc comments.
-/

namespace YuzuVK

/-- `Common::AlignUp` from common/alignment.h: `(value + size - 1) / size * size`. -/
def AlignUp (value size : Nat) : Nat :=
  (value + size - 1) / size * size

/-! ## Streaming buffer cache (vk_buffer_cache.cpp) -/

/-- `CachedBufferEntry` of the dedup cache in `VKBufferCache::UploadMemory`. -/
structure CachedBufferEntry where
  offset : Nat
  size : Nat
  alignment : Nat
  addr : Nat
deriving DecidableEq

/-- The mutable state of `VKBufferCache`: the write pointer into the mapped
stream buffer (modelled as an offset into host memory), the reported GPU
offset cursor, the base offset of the current reservation, and the list of
registered dedup entries. -/
structure VKBufferCache where
  buffer_ptr : Nat
  buffer_offset : Nat
  buffer_offset_base : Nat
  entries : List CachedBufferEntry
deriving DecidableEq

/-- `VKBufferCache::AlignBuffer`: align the reported offset, advance the
mapped pointer by the same amount ("Align the offset, not the mapped
pointer"). -/
def VKBufferCache.AlignBuffer (c : VKBufferCache) (alignment : Nat) : VKBufferCache :=
  let offset_aligned := AlignUp c.buffer_offset alignment
  { c with
    buffer_ptr := c.buffer_ptr + (offset_aligned - c.buffer_offset),
    buffer_offset := offset_aligned }

/-- Modelled from the spec: `RasterizerCache::TryGet` (rasterizer_cache.h is
absent from the snapshot) looks up a cached entry by its exact guest source
address. -/
def VKBufferCache.TryGet (c : VKBufferCache) (addr : Nat) : Option CachedBufferEntry :=
  c.entries.find? (fun e => decide (e.addr = addr))

/-- `VKBufferCache::UploadHostMemory`: align, copy `size` bytes at the write
pointer, report the aligned offset, advance pointer and offset by `size`. -/
def VKBufferCache.UploadHostMemory (c : VKBufferCache) (size alignment : Nat) :
    Nat × VKBufferCache :=
  let c1 := c.AlignBuffer alignment
  let uploaded_offset := c1.buffer_offset
  (uploaded_offset,
   { c1 with buffer_ptr := c1.buffer_ptr + size, buffer_offset := c1.buffer_offset + size })

/-- `VKBufferCache::ReserveMemory`: same cursor arithmetic as
`UploadHostMemory`, additionally reporting the write pointer. -/
def VKBufferCache.ReserveMemory (c : VKBufferCache) (size alignment : Nat) :
    Nat × Nat × VKBufferCache :=
  let c1 := c.AlignBuffer alignment
  let uploaded_ptr := c1.buffer_ptr
  let uploaded_offset := c1.buffer_offset
  (uploaded_ptr, uploaded_offset,
   { c1 with buffer_ptr := c1.buffer_ptr + size, buffer_offset := c1.buffer_offset + size })

/-- The fresh-copy path of `VKBufferCache::UploadMemory` (everything after
the cached-entry check): align, `Memory::ReadBlock` into the write pointer,
advance, and register a new entry when `cache` is set. -/
def VKBufferCache.UploadFresh (c : VKBufferCache) (cpu_addr size alignment : Nat)
    (cache : Bool) : Nat × VKBufferCache :=
  let c1 := c.AlignBuffer alignment
  let uploaded_offset := c1.buffer_offset
  let c2 := { c1 with buffer_ptr := c1.buffer_ptr + size, buffer_offset := c1.buffer_offset + size }
  let c3 := if cache then
    { c2 with entries := ⟨uploaded_offset, size, alignment, cpu_addr⟩ :: c2.entries }
  else c2
  (uploaded_offset, c3)

/-- `VKBufferCache::UploadMemory`: `cache &= size >= 2048`; when caching, a
matching entry (same address, `entry->size >= size`, equal alignment) is
returned directly; a mismatching entry is unregistered first; otherwise the
fresh-copy path runs and registers the upload when `cache` is set. -/
def VKBufferCache.UploadMemory (c : VKBufferCache) (cpu_addr size alignment : Nat)
    (cache_in : Bool) : Nat × VKBufferCache :=
  let cache := cache_in && decide (2048 ≤ size)
  match (if cache then c.TryGet cpu_addr else none) with
  | some entry =>
    if size ≤ entry.size ∧ entry.alignment = alignment then
      (entry.offset, c)
    else
      let c0 := { c with entries := c.entries.eraseP (fun e => decide (e = entry)) }
      c0.UploadFresh cpu_addr size alignment cache
  | none => c.UploadFresh cpu_addr size alignment cache

/-- `VKBufferCache::Reserve`: `VKStreamBuffer::Reserve` is absent from the
snapshot, so its outputs — the new mapped pointer, the reservation base
offset and the invalidation flag — are taken as inputs here.  Modelled from
the spec: when the reservation reports invalidation, `InvalidateAll` drops
every cached entry. -/
def VKBufferCache.Reserve (c : VKBufferCache) (new_ptr new_base : Nat)
    (invalidate : Bool) : VKBufferCache :=
  { buffer_ptr := new_ptr,
    buffer_offset := new_base,
    buffer_offset_base := new_base,
    entries := if invalidate then [] else c.entries }

/-- `VKBufferCache::Send`: publishes `buffer_offset - buffer_offset_base`
bytes to the stream buffer. -/
def VKBufferCache.Send (c : VKBufferCache) : Nat :=
  c.buffer_offset - c.buffer_offset_base

/-- One call of an upload sequence: `UploadHostMemory`, `ReserveMemory`, or
`UploadMemory` (from guest memory, with its cache flag). -/
inductive UploadOp where
  | host (size alignment : Nat)
  | reserveMem (size alignment : Nat)
  | guest (addr size alignment : Nat) (cache_in : Bool)
deriving DecidableEq

/-- The byte count of an upload call. -/
def UploadOp.size : UploadOp → Nat
  | host s _ => s
  | reserveMem s _ => s
  | guest _ s _ _ => s

/-- The requested alignment of an upload call. -/
def UploadOp.alignment : UploadOp → Nat
  | host _ al => al
  | reserveMem _ al => al
  | guest _ _ al _ => al

/-- Whether an upload call takes the dedup-reuse fast path of
`UploadMemory` in state `c` (returning a previously uploaded offset
instead of copying at the cursor). -/
def DedupHit (c : VKBufferCache) : UploadOp → Bool
  | UploadOp.guest a s al ci =>
    (ci && decide (2048 ≤ s)) &&
      (match c.TryGet a with
       | some e => decide (s ≤ e.size) && decide (e.alignment = al)
       | none => false)
  | _ => false

/-- Executes one upload call, returning the reported offset and the new
state. -/
def UploadOp.run (c : VKBufferCache) : UploadOp → Nat × VKBufferCache
  | host s al => c.UploadHostMemory s al
  | reserveMem s al => ((c.ReserveMemory s al).2.1, (c.ReserveMemory s al).2.2)
  | guest a s al ci => c.UploadMemory a s al ci

/-- Runs a sequence of upload calls, collecting the returned offsets and
whether any call took the dedup-reuse path. -/
def RunUploadOps (c : VKBufferCache) : List UploadOp → VKBufferCache × List Nat × Bool
  | [] => (c, [], false)
  | op :: ops =>
    let r := UploadOp.run c op
    let rest := RunUploadOps r.2 ops
    (rest.1, r.1 :: rest.2.1, DedupHit c op || rest.2.2)

/-- Specification-side recursion for the streaming-offset claim: each
returned offset is the previous cursor rounded up to that call's requested
alignment, and the cursor then advances past the uploaded bytes. -/
def OffsetsFollowCursor : Nat → List UploadOp → List Nat → Bool
  | _, [], [] => true
  | cursor, op :: ops, o :: offs =>
    (o == AlignUp cursor op.alignment) && OffsetsFollowCursor (o + op.size) ops offs
  | _, _, _ => false

/-! ## Pipeline cache (vk_pipeline_cache.cpp) -/

/-- One `shader_config` register: the enable bit read by
`Maxwell3D::Regs::IsShaderConfigEnabled(index)` and the code offset used by
`GetShaderAddress`. -/
structure ShaderConfigReg where
  enabled : Bool
  offset : Nat

/-- The engine registers that `VKPipelineCache::GetPipeline` reads: the code
base address and the per-program `shader_config` entries (indices 0 to
`Maxwell::MaxShaderProgram - 1 = 5`). -/
structure MaxwellShaderRegs where
  code_address : Nat
  shader_config : Nat → ShaderConfigReg

/-- `GetShaderAddress`: `GpuToCpuAddress(code_address.CodeAddress() +
shader_config[program].offset)`.  The GPU memory manager is absent from the
snapshot; the address translation is the function argument `gpuToCpu` (the
source asserts the translation succeeds and dereferences it). -/
def GetShaderAddress (regs : MaxwellShaderRegs) (gpuToCpu : Nat → Nat)
    (program : Nat) : Nat :=
  gpuToCpu (regs.code_address + (regs.shader_config program).offset)

/-- The shader setup of `CachedShader`: `setup{GetShaderCode(addr)}`, and
`SetProgramB` stores a second program code for the dual vertex shader.
`Memory::ReadBlock` is absent from the snapshot; the code fetched from a
guest address is the function argument `readCode`. -/
structure ShaderSetup where
  program_code : List Nat
  program_code_b : Option (List Nat)
deriving DecidableEq

/-- The identity-relevant part of `CachedShader`: its guest address, its
program type (0 = VertexA, 1 = VertexB, 5 = Fragment) and the setup holding
the fetched program code. -/
structure CachedShader where
  addr : Nat
  program_type : Nat
  setup : ShaderSetup
deriving DecidableEq

/-- `CachedShader::CachedShader`: fetch the code at `addr`; for
`ShaderProgram::VertexA` (program 0) additionally fetch the code at
VertexB's address with `setup.SetProgramB` — VertexB is always enabled
alongside VertexA, and the two are combined into one stage. -/
def CachedShader.make (regs : MaxwellShaderRegs) (gpuToCpu : Nat → Nat)
    (readCode : Nat → List Nat) (addr : Nat) (program_type : Nat) : CachedShader :=
  let setup0 : ShaderSetup := { program_code := readCode addr, program_code_b := none }
  let setup := if program_type = 0 then
    { setup0 with program_code_b := some (readCode (GetShaderAddress regs gpuToCpu 1)) }
  else setup0
  { addr := addr, program_type := program_type, setup := setup }

/-- The pipeline cache key of `VKPipelineCache::GetPipeline`:
`{shaders, renderpass_params, params}`.  The shader-address tuple
`ShaderPipeline` is the 6-entry array `shaders{}` (zero-initialised);
`RenderPassParams` and the fixed-function `PipelineParams` are compared
memberwise by the cache map, so they are modelled as opaque values. -/
structure PipelineKey where
  shaders : List Nat
  renderpass_params : Nat
  params : Nat
deriving DecidableEq

/-- The state of `VKPipelineCache`: the registered shaders (the
`RasterizerCache` by guest address), the pipeline key map, and a counter
producing fresh entry identities (an entry identity stands for the compiled
`CacheEntry` object handed out as the pipeline handle). -/
structure VKPipelineCache where
  shader_cache : List CachedShader
  entries : List (PipelineKey × Nat)
  next_entry_id : Nat

/-- Accumulator of the stage-gathering loop in `GetPipeline`: the
`ShaderPipeline shaders{}` address array, the `pipeline.shaders[stage]`
assignments made so far, and the shader cache. -/
structure StageAccum where
  shaders : List Nat
  stage_shaders : List (Nat × CachedShader)
  shader_cache : List CachedShader

/-- The `for (index = 0; index < Maxwell::MaxShaderProgram; ++index)` loop
of `GetPipeline`: skip disabled stages, record the stage address in the key
array, look the shader up by address (creating and registering it on a
miss), assign it to slot `index == 0 ? 0 : index - 1`, and skip the VertexB
iteration after VertexA (`index++`).  `fuel` bounds the loop iterations;
the index strictly increases each round and the loop exits at 6, so any
`fuel ≥ 6 - index` computes the loop exactly. -/
def GatherStages (regs : MaxwellShaderRegs) (gpuToCpu : Nat → Nat)
    (readCode : Nat → List Nat) : Nat → Nat → StageAccum → StageAccum
  | 0, _, acc => acc
  | fuel + 1, index, acc =>
    if index < 6 then
      if (regs.shader_config index).enabled = false then
        GatherStages regs gpuToCpu readCode fuel (index + 1) acc
      else
        let program_addr := GetShaderAddress regs gpuToCpu index
        let shaders := acc.shaders.set index program_addr
        let found := acc.shader_cache.find? (fun s => decide (s.addr = program_addr))
        let shader := match found with
          | some s => s
          | none => CachedShader.make regs gpuToCpu readCode program_addr index
        let cache := match found with
          | some _ => acc.shader_cache
          | none => shader :: acc.shader_cache
        let stage := if index = 0 then 0 else index - 1
        let acc1 : StageAccum :=
          { shaders := shaders,
            stage_shaders := acc.stage_shaders ++ [(stage, shader)],
            shader_cache := cache }
        if index = 0 then GatherStages regs gpuToCpu readCode fuel (index + 2) acc1
        else GatherStages regs gpuToCpu readCode fuel (index + 1) acc1
    else acc

/-- The stage gathering of `GetPipeline` started on the zero-initialised
accumulator, with enough fuel for the whole loop. -/
def RunGatherStages (regs : MaxwellShaderRegs) (gpuToCpu : Nat → Nat)
    (readCode : Nat → List Nat) (c : VKPipelineCache) : StageAccum :=
  GatherStages regs gpuToCpu readCode 6 0
    { shaders := List.replicate 6 0, stage_shaders := [], shader_cache := c.shader_cache }

/-- The pipeline key computed by a `GetPipeline` call. -/
def PipelineKeyOf (regs : MaxwellShaderRegs) (gpuToCpu : Nat → Nat)
    (readCode : Nat → List Nat) (c : VKPipelineCache)
    (renderpass_params params : Nat) : PipelineKey :=
  { shaders := (RunGatherStages regs gpuToCpu readCode c).shaders,
    renderpass_params := renderpass_params,
    params := params }

/-- `VKPipelineCache::GetPipeline`: gather the stages, then
`cache.try_emplace({shaders, renderpass_params, params})`; on a miss a new
`CacheEntry` is compiled and stored, on a hit the memoized entry is
returned.  Returns the handle (the entry identity), the per-stage shaders
and the new cache state. -/
def VKPipelineCache.GetPipeline (c : VKPipelineCache) (regs : MaxwellShaderRegs)
    (gpuToCpu : Nat → Nat) (readCode : Nat → List Nat)
    (renderpass_params params : Nat) :
    Nat × List (Nat × CachedShader) × VKPipelineCache :=
  let acc := RunGatherStages regs gpuToCpu readCode c
  let key : PipelineKey :=
    { shaders := acc.shaders, renderpass_params := renderpass_params, params := params }
  match c.entries.find? (fun p => decide (p.1 = key)) with
  | some p =>
    (p.2, acc.stage_shaders, { c with shader_cache := acc.shader_cache })
  | none =>
    (c.next_entry_id, acc.stage_shaders,
     { shader_cache := acc.shader_cache,
       entries := (key, c.next_entry_id) :: c.entries,
       next_entry_id := c.next_entry_id + 1 })

/-- `VKPipelineCache::ObjectInvalidated`: erase every cache entry whose
key's shader-address array contains the invalidated shader's address
(`shader->GetAddr()`, passed here directly). -/
def VKPipelineCache.ObjectInvalidated (c : VKPipelineCache)
    (invalidated_addr : Nat) : VKPipelineCache :=
  { c with entries := c.entries.filter (fun p => !(p.1.shaders.contains invalidated_addr)) }

/-- Well-formedness of the pipeline cache: every stored entry identity is
below the fresh-identity counter. -/
def VKPipelineCache.WF (c : VKPipelineCache) : Prop :=
  ∀ p ∈ c.entries, p.2 < c.next_entry_id

/-! ## Surface/texture cache (vk_texture_cache.cpp) -/

/-- `SurfaceParams` of vk_texture_cache: the identity and layout fields the
cache compares and the sizes set by `InitCacheParameters`.  The
`GetSizeInBytes`/`GetSizeInBytesVK` computations live in the header that is
absent from the snapshot; `InitCacheParameters` stores their results into
`size_in_bytes`/`size_in_bytes_vk`, which here carry those values
directly. -/
structure SurfaceParams where
  is_tiled : Bool
  block_width : Nat
  block_height : Nat
  block_depth : Nat
  tile_width_spacing : Nat
  pixel_format : Nat
  component_type : Nat
  width : Nat
  height : Nat
  unaligned_height : Nat
  depth : Nat
  target : Nat
  addr : Nat
  gpu_addr : Nat
  size_in_bytes : Nat
  size_in_bytes_vk : Nat
deriving DecidableEq

/-- `SurfaceParams::GetSizeInBytes` as used by `GetOverlappingSurfaces`;
`InitCacheParameters` sets `size_in_bytes = GetSizeInBytes()`. -/
def SurfaceParams.GetSizeInBytes (p : SurfaceParams) : Nat :=
  p.size_in_bytes

/-- A registered `CachedSurface`, identified by the host image object it
owns (`id`) and the parameters it was created with. -/
structure CachedSurface where
  id : Nat
  params : SurfaceParams
deriving DecidableEq

/-- Modelled from the spec: `CachedSurface::IsOverlap` (declared in the
absent vk_texture_cache.h) — two regions overlap when their byte ranges
intersect. -/
def CachedSurface.IsOverlap (s : CachedSurface) (addr size : Nat) : Bool :=
  decide (s.params.addr < addr + size) && decide (addr < s.params.addr + s.params.GetSizeInBytes)

/-- Modelled from the spec: `CachedSurface::IsFamiliar` (declared in the
absent vk_texture_cache.h) — the overlap's shape exactly matches the
request. -/
def CachedSurface.IsFamiliar (s : CachedSurface) (params : SurfaceParams) : Bool :=
  decide (s.params = params)

/-- A `CachedView` handle: a weak reference into the owning surface (layer
and mip are always zero in this snapshot). -/
structure CachedView where
  surface_id : Nat
deriving DecidableEq

/-- Modelled from the spec: `CachedSurface::TryGetView` (declared in the
absent vk_texture_cache.h) — an exact-parameter request yields the
surface's superset view, anything else yields no view. -/
def CachedSurface.TryGetView (s : CachedSurface) (params : SurfaceParams) :
    Option CachedView :=
  if s.params = params then some ⟨s.id⟩ else none

/-- Observable cache operations recorded by the texture-cache model:
`flush s` is the `surface->Flush(exctx)` call (whose `FlushVKBuffer` body is
left unimplemented in this snapshot), `unregister`/`register` are the
registered-surface list updates, `create s` is the `CachedSurface`
construction and `load s` the guest-memory load of `LoadSurface`. -/
inductive CacheEvent where
  | flush (id : Nat)
  | unregister (id : Nat)
  | create (id : Nat)
  | load (id : Nat)
  | register (id : Nat)
deriving DecidableEq

/-- The state of `VKTextureCache`: the registered surfaces and a counter
producing fresh surface identities. -/
structure VKTextureCache where
  registered_surfaces : List CachedSurface
  next_id : Nat
deriving DecidableEq

/-- `VKTextureCache::GetOverlappingSurfaces`: the registered surfaces whose
byte ranges overlap `[params.addr, params.addr + params.GetSizeInBytes())`. -/
def VKTextureCache.GetOverlappingSurfaces (s : VKTextureCache)
    (params : SurfaceParams) : List CachedSurface :=
  s.registered_surfaces.filter (fun srf => srf.IsOverlap params.addr params.GetSizeInBytes)

/-- `VKTextureCache::Unregister`: find the surface in the registered list
and erase it. -/
def VKTextureCache.Unregister (s : VKTextureCache) (surface : CachedSurface) :
    VKTextureCache :=
  { s with registered_surfaces :=
      s.registered_surfaces.eraseP (fun r => decide (r = surface)) }

/-- `VKTextureCache::InvalidateRegion`: erase-remove every registered
surface overlapping the region; nothing is flushed. -/
def VKTextureCache.InvalidateRegion (s : VKTextureCache) (addr size : Nat) :
    VKTextureCache × List CacheEvent :=
  ({ s with registered_surfaces :=
      s.registered_surfaces.filter (fun srf => !(srf.IsOverlap addr size)) },
   [])

/-- `VKTextureCache::LoadView`: construct a new `CachedSurface`, load its
contents from guest memory when `preserve_contents` is set, register it and
return its superset view. -/
def VKTextureCache.LoadView (s : VKTextureCache) (params : SurfaceParams)
    (preserve_contents : Bool) : CachedView × VKTextureCache × List CacheEvent :=
  let nid := s.next_id
  let new_surface : CachedSurface := ⟨nid, params⟩
  let load_events := if preserve_contents then [CacheEvent.load nid] else []
  (⟨nid⟩,
   { registered_surfaces := s.registered_surfaces ++ [new_surface], next_id := nid + 1 },
   CacheEvent.create nid :: (load_events ++ [CacheEvent.register nid]))

/-- The single-familiar-overlap fast path of `GetView`: with exactly one
overlap that is familiar, `TryGetView` may supply the view. -/
def FamiliarFastPath (overlaps : List CachedSurface) (params : SurfaceParams) :
    Option CachedView :=
  match overlaps with
  | [overlap] => if overlap.IsFamiliar params then overlap.TryGetView params else none
  | _ => none

/-- `VKTextureCache::GetView`: no overlap loads a fresh view; a single
familiar overlap returns its derived view; otherwise every overlapping
surface is flushed and unregistered and the load path runs. -/
def VKTextureCache.GetView (s : VKTextureCache) (params : SurfaceParams)
    (preserve_contents : Bool) : CachedView × VKTextureCache × List CacheEvent :=
  let overlaps := s.GetOverlappingSurfaces params
  if overlaps.isEmpty then s.LoadView params preserve_contents
  else
    match FamiliarFastPath overlaps params with
    | some view => (view, s, [])
    | none =>
      let s1 := overlaps.foldl (fun st o => st.Unregister o) s
      let pre := overlaps.flatMap (fun o => [CacheEvent.flush o.id, CacheEvent.unregister o.id])
      let r := s1.LoadView params preserve_contents
      (r.1, r.2.1, pre ++ r.2.2)

/-- Two registered surfaces occupy disjoint byte ranges (the spec's
"non-overlapping set of regions"). -/
def SurfacesDisjoint (a b : CachedSurface) : Prop :=
  ¬(a.params.addr < b.params.addr + b.params.GetSizeInBytes ∧
    b.params.addr < a.params.addr + a.params.GetSizeInBytes)

/-- The outcome of the size check in `CachedSurface::CachedSurface`:
`cached_size_in_bytes` starts at `params.size_in_bytes` and is clamped to
`GetRegionEnd(gpu_addr) - gpu_addr` with an error log when it exceeds it. -/
structure SurfaceSizeInit where
  cached_size_in_bytes : Nat
  logged_size_error : Bool
deriving DecidableEq

/-- The constructor's clamp: `max_size = GetRegionEnd(params.gpu_addr) -
params.gpu_addr`; the guest memory manager is absent from the snapshot, so
the region end is an argument. -/
def InitCachedSurfaceSize (params : SurfaceParams) (region_end : Nat) :
    SurfaceSizeInit :=
  let max_size := region_end - params.gpu_addr
  if params.size_in_bytes > max_size then
    { cached_size_in_bytes := max_size, logged_size_error := true }
  else
    { cached_size_in_bytes := params.size_in_bytes, logged_size_error := false }

/-- The number of guest-memory bytes read starting at `params.addr` by
`CachedSurface::LoadVKBuffer`: the linear path copies
`params.size_in_bytes_vk` bytes; the tiled path de-swizzles the
guest-layout span (`MortonSwizzle` lives in a file absent from the
snapshot and is modelled as reading the guest-layout byte count).  Neither
path consults the clamped `cached_size_in_bytes`. -/
def LoadVKBufferGuestReadCount (params : SurfaceParams) : Nat :=
  if params.is_tiled then params.size_in_bytes else params.size_in_bytes_vk

/-! ## Shader decompiler control-flow analysis (vk_shader_decompiler.cpp) -/

/-- `ExitMethod`: the behaviour of a code path between an entry point and a
return point. -/
inductive ExitMethod where
  | undetermined
  | alwaysReturn
  | conditional
  | alwaysEnd
deriving DecidableEq

/-- The control-flow-relevant reading of one decoded instruction.
`OpCode::Decode` and the instruction bit fields live in shader_bytecode.h,
which is absent from the snapshot; a program is therefore given as a map
from offsets to decoded instructions, `none` standing for an instruction
`OpCode::Decode` rejects.  `exit` carries `instr.pred.pred_index`, the
branch forms carry `instr.bra.GetBranchTarget()` (a signed offset). -/
inductive DecodedInst where
  | exit (pred_index : Nat)
  | bra (rel : Int)
  | ssy (rel : Int)
  | pbk (rel : Int)
  | other
deriving DecidableEq

/-- `Pred::UnusedIndex` from the absent shader_bytecode.h: the predicate
index denoting an unpredicated instruction. -/
def PredUnusedIndex : Nat := 7

/-- `ParallelExit`: merges the exit methods of two parallel branches. -/
def ParallelExit (a b : ExitMethod) : ExitMethod :=
  if a = ExitMethod.undetermined then b
  else if b = ExitMethod.undetermined then a
  else if a = b then a
  else ExitMethod.conditional

/-- The `exit_method_map` memoization table of `ControlFlowAnalyzer`. -/
abbrev ExitMethodMap := List ((Nat × Nat) × ExitMethod)

/-- Lookup in the memoization table. -/
def memoFind (m : ExitMethodMap) (k : Nat × Nat) : Option ExitMethod :=
  (m.find? (fun p => decide (p.1 = k))).map (·.2)

/-- Replaces the stored exit method for a key (the C++ updates through the
reference obtained from `emplace`). -/
def memoSet (m : ExitMethodMap) (k : Nat × Nat) (v : ExitMethod) : ExitMethodMap :=
  m.map (fun p => if p.1 = k then (p.1, v) else p)

/-- `u32` wrap-around for `offset + instr.bra.GetBranchTarget()`. -/
def u32ofInt (i : Int) : Nat :=
  (i % (2 ^ 32 : Int)).toNat

mutual

/-- `ControlFlowAnalyzer::Scan` entry: return the memoized exit method when
the range was already visited (the recursion-detection mechanism — a
revisit of an in-progress range observes the `Undetermined` placeholder),
otherwise insert the placeholder, run the scan loop, and store its result.
`fuel` bounds the recursion depth; `none` means the bound was exhausted. -/
def scan (prog : Nat → Option DecodedInst) (progEnd : Nat) :
    Nat → Nat → Nat → ExitMethodMap → List Nat →
    Option (ExitMethod × ExitMethodMap × List Nat)
  | 0, _, _, _, _ => none
  | fuel + 1, b, e, memo, labels =>
    match memoFind memo (b, e) with
    | some m => some (m, memo, labels)
    | none =>
      match scanLoop prog progEnd fuel b e (((b, e), ExitMethod.undetermined) :: memo) labels with
      | none => none
      | some (m, memo1, labels1) => some (m, memoSet memo1 (b, e) m, labels1)

/-- The `for (offset = begin; offset != end && offset != PROGRAM_END;
++offset)` loop of `Scan`: an unpredicated `EXIT` ends the path; a
predicated `EXIT` merges `AlwaysEnd` with the not-taken path; `BRA` records
the label and merges the fall-through and jump paths; `SSY`/`PBK` record
the label and keep scanning; running off the range returns
`AlwaysReturn`. -/
def scanLoop (prog : Nat → Option DecodedInst) (progEnd : Nat) :
    Nat → Nat → Nat → ExitMethodMap → List Nat →
    Option (ExitMethod × ExitMethodMap × List Nat)
  | 0, _, _, _, _ => none
  | fuel + 1, offset, e, memo, labels =>
    if offset = e ∨ offset = progEnd then some (ExitMethod.alwaysReturn, memo, labels)
    else
      match prog offset with
      | none => scanLoop prog progEnd fuel (offset + 1) e memo labels
      | some (DecodedInst.exit pred_index) =>
        if pred_index = PredUnusedIndex then some (ExitMethod.alwaysEnd, memo, labels)
        else
          match scan prog progEnd fuel (offset + 1) e memo labels with
          | none => none
          | some (not_met, memo1, labels1) =>
            some (ParallelExit ExitMethod.alwaysEnd not_met, memo1, labels1)
      | some (DecodedInst.bra rel) =>
        let target := u32ofInt ((offset : Int) + rel)
        match scan prog progEnd fuel (offset + 1) e memo (target :: labels) with
        | none => none
        | some (no_jmp, memo1, labels1) =>
          match scan prog progEnd fuel target e memo1 labels1 with
          | none => none
          | some (jmp, memo2, labels2) =>
            some (ParallelExit no_jmp jmp, memo2, labels2)
      | some (DecodedInst.ssy rel) =>
        let target := u32ofInt ((offset : Int) + rel)
        scanLoop prog progEnd fuel (offset + 1) e memo (target :: labels)
      | some (DecodedInst.pbk rel) =>
        let target := u32ofInt ((offset : Int) + rel)
        scanLoop prog progEnd fuel (offset + 1) e memo (target :: labels)
      | some DecodedInst.other => scanLoop prog progEnd fuel (offset + 1) e memo labels

end

/-- A `Subroutine`: a code range with its exit method and the labels found
inside it. -/
structure Subroutine where
  begin_offset : Nat
  end_offset : Nat
  exit_method : ExitMethod
  labels : List Nat
deriving DecidableEq

/-- The `ControlFlowAnalyzer` constructor: `AddSubroutine(main_offset,
PROGRAM_END)` scans the main range with fresh state, throws
`DecompileFail("Recursive function detected")` when the scan is
undetermined, and throws `DecompileFail("Program does not always end")`
when the main subroutine's exit method is not `AlwaysEnd`.  `none` means
the fuel bound was exhausted. -/
def ControlFlowAnalyze (prog : Nat → Option DecodedInst) (progEnd mainOffset fuel : Nat) :
    Option (Except String (List Subroutine)) :=
  match scan prog progEnd fuel mainOffset progEnd [] [] with
  | none => none
  | some (m, _, labels) =>
    if m = ExitMethod.undetermined then
      some (Except.error "Recursive function detected")
    else if m ≠ ExitMethod.alwaysEnd then
      some (Except.error "Program does not always end")
    else
      some (Except.ok [⟨mainOffset, progEnd, m, labels⟩])

/-- `SpirvModule::Decompile`: run the control-flow analyzer and `Generate`
the subroutines; a `DecompileFail` is caught, logged, and an empty result
(`return {}`, the null `Id`) is returned.  `Generate` emits SPIR-V from
state that is irrelevant here, so the success continuation `gen` is a
parameter.  The outer `Option` is the fuel bound of the model; the inner
`Option` is the decompilation result, `none` being the empty `Id`. -/
def Decompile (gen : List Subroutine → Nat) (prog : Nat → Option DecodedInst)
    (progEnd mainOffset fuel : Nat) : Option (Option Nat) :=
  match ControlFlowAnalyze prog progEnd mainOffset fuel with
  | none => none
  | some (Except.error _) => some none
  | some (Except.ok subroutines) => some (some (gen subroutines))

/-! ## Concrete inputs used by individual claim theorems -/

/-- A surface whose computed sizes (0x200 bytes) exceed the backing guest
region (`GetRegionEnd = 0x1100`, so only 0x100 bytes back the surface). -/
def exampleOversizedParams : SurfaceParams :=
  { is_tiled := false, block_width := 0, block_height := 0, block_depth := 0,
    tile_width_spacing := 1, pixel_format := 0, component_type := 0,
    width := 16, height := 8, unaligned_height := 8, depth := 1, target := 0,
    addr := 0x1000, gpu_addr := 0x1000, size_in_bytes := 0x200, size_in_bytes_vk := 0x200 }

/-- Registers with the dual vertex shaders enabled: VertexA's code is at
address 0x100 and VertexB's at address 0x200 (address translation is the
identity). -/
def exampleDualVertexRegs : MaxwellShaderRegs :=
  { code_address := 0,
    shader_config := fun i =>
      if i = 0 then ⟨true, 0x100⟩ else if i = 1 then ⟨true, 0x200⟩ else ⟨false, 0⟩ }

/-- A buffer cache holding one dedup entry: a 4096-byte upload from guest
address 4096 with alignment 4, stored at stream offset 0; the cursor has
moved on to 5000. -/
def exampleDedupState : VKBufferCache :=
  { buffer_ptr := 5000, buffer_offset := 5000, buffer_offset_base := 0,
    entries := [⟨0, 4096, 4, 4096⟩] }

/-- A shader program every instruction of which decodes to a non-control
opcode: the scan runs off the range without meeting an `EXIT`, so the main
subroutine's exit method is `AlwaysReturn`, not `AlwaysEnd`. -/
def exampleNonEndingProgram : Nat → Option DecodedInst :=
  fun _ => some DecodedInst.other

/-- Parameters of a registered 0x100-byte surface at address 0x4000. -/
def exampleRegisteredParams : SurfaceParams :=
  { is_tiled := false, block_width := 0, block_height := 0, block_depth := 0,
    tile_width_spacing := 1, pixel_format := 0, component_type := 0,
    width := 8, height := 8, unaligned_height := 8, depth := 1, target := 0,
    addr := 0x4000, gpu_addr := 0x4000, size_in_bytes := 0x100, size_in_bytes_vk := 0x100 }

/-- A texture cache with the example surface registered as surface 7. -/
def exampleTextureCache : VKTextureCache :=
  { registered_surfaces := [⟨7, exampleRegisteredParams⟩], next_id := 8 }

/-- Parameters of a request at address 0x4080 overlapping the tail halves
of two registered 0x100-byte surfaces at 0x4000 and 0x4100. -/
def exampleOverlapRequest : SurfaceParams :=
  { is_tiled := false, block_width := 0, block_height := 0, block_depth := 0,
    tile_width_spacing := 1, pixel_format := 0, component_type := 0,
    width := 8, height := 16, unaligned_height := 16, depth := 1, target := 0,
    addr := 0x4080, gpu_addr := 0x4080, size_in_bytes := 0x100, size_in_bytes_vk := 0x100 }

/-- A texture cache with two adjacent 0x100-byte surfaces registered, both
overlapping `exampleOverlapRequest`. -/
def exampleTwoSurfaceCache : VKTextureCache :=
  { registered_surfaces :=
      [⟨3, exampleRegisteredParams⟩,
       ⟨4, { exampleRegisteredParams with addr := 0x4100, gpu_addr := 0x4100 }⟩],
    next_id := 5 }

/-- A pipeline cache with nothing in it. -/
def exampleEmptyPipelineCache : VKPipelineCache :=
  { shader_cache := [], entries := [], next_entry_id := 0 }

/-- Registers with every shader stage disabled. -/
def exampleDisabledRegs : MaxwellShaderRegs :=
  { code_address := 0, shader_config := fun _ => ⟨false, 0⟩ }

/-! # Theorems -/

/-- C4: invalidating a shader address removes from the pipeline cache
exactly those entries whose key's shader-address tuple contains that
address; every entry whose key does not contain it is kept unchanged. -/
theorem ObjectInvalidated_removes_exactly_matching (c : VKPipelineCache) (a : Nat) :
    ∀ k e, ((k, e) ∈ (c.ObjectInvalidated a).entries ↔
      (k, e) ∈ c.entries ∧ a ∉ k.shaders) := by
  intro k e
  simp [VKPipelineCache.ObjectInvalidated, List.mem_filter]

/-- C6: `InvalidateRegion` removes from the registered-surface set exactly
the surfaces overlapping the region, records no flush, and leaves the rest
of the cache state unchanged. -/
theorem InvalidateRegion_exact (s : VKTextureCache) (addr size : Nat) :
    (∀ surf, surf ∈ (s.InvalidateRegion addr size).1.registered_surfaces ↔
      surf ∈ s.registered_surfaces ∧ surf.IsOverlap addr size = false) ∧
    (s.InvalidateRegion addr size).2 = [] ∧
    (s.InvalidateRegion addr size).1.next_id = s.next_id := by
  refine ⟨fun surf => ?_, rfl, rfl⟩
  simp [VKTextureCache.InvalidateRegion, List.mem_filter]

/-- C7: on a surface whose computed size exceeds the backing region, the
constructor clamps the cached size to the region bound and logs an error,
but `LoadVKBuffer` still reads the full unclamped `size_in_bytes_vk` byte
count from guest memory — more bytes than the clamped bound allows. -/
theorem LoadVKBuffer_reads_past_clamped_bound :
    (InitCachedSurfaceSize exampleOversizedParams 0x1100).cached_size_in_bytes = 0x100 ∧
    (InitCachedSurfaceSize exampleOversizedParams 0x1100).logged_size_error = true ∧
    (InitCachedSurfaceSize exampleOversizedParams 0x1100).cached_size_in_bytes <
      LoadVKBufferGuestReadCount exampleOversizedParams := by
  decide

/-- C10: whenever the control-flow scan of a shader program yields anything
other than `AlwaysEnd` (the program does not always end, or a recursive
function left the result undetermined), the analyzer reports a decompile
failure and `Decompile` returns the empty result instead of aborting. -/
theorem Decompile_empty_on_analysis_failure
    (gen : List Subroutine → Nat) (prog : Nat → Option DecodedInst)
    (progEnd mainOffset fuel : Nat) (m : ExitMethod) (mm : ExitMethodMap) (ll : List Nat)
    (hscan : scan prog progEnd fuel mainOffset progEnd [] [] = some (m, mm, ll))
    (hfail : m ≠ ExitMethod.alwaysEnd) :
    ∃ msg, ControlFlowAnalyze prog progEnd mainOffset fuel = some (Except.error msg) ∧
      (msg = "Recursive function detected" ∨ msg = "Program does not always end") ∧
      Decompile gen prog progEnd mainOffset fuel = some none := by
  by_cases hm : m = ExitMethod.undetermined
  · refine ⟨"Recursive function detected", ?_, Or.inl rfl, ?_⟩
    · simp [ControlFlowAnalyze, hscan, hm]
    · simp [Decompile, ControlFlowAnalyze, hscan, hm]
  · refine ⟨"Program does not always end", ?_, Or.inr rfl, ?_⟩
    · simp [ControlFlowAnalyze, hscan, hm, hfail]
    · simp [Decompile, ControlFlowAnalyze, hscan, hm, hfail]

/-- C10 witness: a program of plain instructions scans to `AlwaysReturn`,
and decompiling it reports the failure and returns the empty result. -/
theorem Decompile_empty_on_analysis_failure_witness :
    scan exampleNonEndingProgram 2 10 0 2 [] [] =
      some (ExitMethod.alwaysReturn, [((0, 2), ExitMethod.alwaysReturn)], []) ∧
    ExitMethod.alwaysReturn ≠ ExitMethod.alwaysEnd ∧
    (∃ msg, ControlFlowAnalyze exampleNonEndingProgram 2 0 10 = some (Except.error msg) ∧
      (msg = "Recursive function detected" ∨ msg = "Program does not always end") ∧
      Decompile (fun _ => 0) exampleNonEndingProgram 2 0 10 = some none) :=
  ⟨by decide, by decide,
   Decompile_empty_on_analysis_failure (fun _ => 0) exampleNonEndingProgram 2 0 10
     ExitMethod.alwaysReturn [((0, 2), ExitMethod.alwaysReturn)] [] (by decide) (by decide)⟩

/-- Rounding up never moves an offset backwards (for a positive
alignment). -/
theorem AlignUp_ge (v a : Nat) (ha : 0 < a) : v ≤ AlignUp v a := by
  have h := Nat.lt_div_mul_add (a := v + a - 1) ha
  unfold AlignUp
  generalize (v + a - 1) / a * a = X at h ⊢
  omega

/-- One `UploadHostMemory` step: the reported offset is the previous cursor
rounded up to the alignment, the cursor advances past the copied bytes, and
the mapped write pointer advances by exactly the same amount as the
reported offset. -/
theorem UploadHostMemory_step (c : VKBufferCache) (size alignment : Nat)
    (ha : 0 < alignment) :
    (c.UploadHostMemory size alignment).1 = AlignUp c.buffer_offset alignment ∧
    (c.UploadHostMemory size alignment).2.buffer_offset
      = AlignUp c.buffer_offset alignment + size ∧
    (c.UploadHostMemory size alignment).2.buffer_offset_base = c.buffer_offset_base ∧
    (c.UploadHostMemory size alignment).2.buffer_ptr + c.buffer_offset
      = c.buffer_ptr + (c.UploadHostMemory size alignment).2.buffer_offset ∧
    (c.UploadHostMemory size alignment).2.entries = c.entries := by
  have h := AlignUp_ge c.buffer_offset alignment ha
  refine ⟨rfl, rfl, rfl, ?_, rfl⟩
  simp only [VKBufferCache.UploadHostMemory, VKBufferCache.AlignBuffer]
  omega

/-- The fresh-copy path has the same cursor arithmetic whether or not it
registers a dedup entry. -/
theorem UploadFresh_step (c : VKBufferCache) (a size al : Nat) (cache : Bool)
    (ha : 0 < al) :
    (c.UploadFresh a size al cache).1 = AlignUp c.buffer_offset al ∧
    (c.UploadFresh a size al cache).2.buffer_offset = AlignUp c.buffer_offset al + size ∧
    (c.UploadFresh a size al cache).2.buffer_offset_base = c.buffer_offset_base ∧
    (c.UploadFresh a size al cache).2.buffer_ptr + c.buffer_offset
      = c.buffer_ptr + (c.UploadFresh a size al cache).2.buffer_offset := by
  have h := AlignUp_ge c.buffer_offset al ha
  unfold VKBufferCache.UploadFresh VKBufferCache.AlignBuffer
  cases cache <;>
    exact ⟨rfl, rfl, rfl, by
      show c.buffer_ptr + (AlignUp c.buffer_offset al - c.buffer_offset) + size
            + c.buffer_offset
          = c.buffer_ptr + (AlignUp c.buffer_offset al + size)
      omega⟩

/-- One upload call that does not take the dedup-reuse path: the reported
offset is the previous cursor rounded up to the alignment, the cursor
advances past the copied bytes, the reservation base is untouched, and the
mapped write pointer advances by exactly the same amount as the reported
offset. -/
theorem UploadOp_run_step (c : VKBufferCache) (op : UploadOp)
    (ha : 0 < op.alignment) (hnohit : DedupHit c op = false) :
    (UploadOp.run c op).1 = AlignUp c.buffer_offset op.alignment ∧
    (UploadOp.run c op).2.buffer_offset
      = AlignUp c.buffer_offset op.alignment + op.size ∧
    (UploadOp.run c op).2.buffer_offset_base = c.buffer_offset_base ∧
    (UploadOp.run c op).2.buffer_ptr + c.buffer_offset
      = c.buffer_ptr + (UploadOp.run c op).2.buffer_offset := by
  cases op with
  | host s al =>
    obtain ⟨h1, h2, h3, h4, _⟩ := UploadHostMemory_step c s al ha
    exact ⟨h1, h2, h3, h4⟩
  | reserveMem s al =>
    have h := AlignUp_ge c.buffer_offset al ha
    unfold UploadOp.run VKBufferCache.ReserveMemory VKBufferCache.AlignBuffer
    exact ⟨rfl, rfl, rfl, by dsimp only; omega⟩
  | guest a s al ci =>
    dsimp only [UploadOp.run, UploadOp.alignment, UploadOp.size] at ha ⊢
    by_cases hc : (ci && decide (2048 ≤ s)) = true
    · cases ht : c.TryGet a with
      | none =>
        have hrun : c.UploadMemory a s al ci = c.UploadFresh a s al true := by
          unfold VKBufferCache.UploadMemory
          rw [hc, ht]
          rfl
        rw [hrun]
        exact UploadFresh_step c a s al true ha
      | some e =>
        have hm : ¬(s ≤ e.size ∧ e.alignment = al) := by
          simp only [DedupHit, hc, Bool.true_and, ht] at hnohit
          intro hand
          rw [decide_eq_true hand.1, decide_eq_true hand.2] at hnohit
          simp at hnohit
        have hrun : c.UploadMemory a s al ci
            = VKBufferCache.UploadFresh
                { c with entries := c.entries.eraseP (fun x => decide (x = e)) }
                a s al true := by
          unfold VKBufferCache.UploadMemory
          rw [hc, ht]
          show (if s ≤ e.size ∧ e.alignment = al then (e.offset, c)
            else VKBufferCache.UploadFresh
              { c with entries := c.entries.eraseP (fun x => decide (x = e)) }
              a s al true) = _
          rw [if_neg hm]
        rw [hrun]
        exact UploadFresh_step _ a s al true ha
    · have hc2 : (ci && decide (2048 ≤ s)) = false := by
        rwa [Bool.not_eq_true] at hc
      have hrun : c.UploadMemory a s al ci = c.UploadFresh a s al false := by
        unfold VKBufferCache.UploadMemory
        rw [hc2]
        rfl
      rw [hrun]
      exact UploadFresh_step c a s al false ha

/-- The offsets returned by a run of uploads with no dedup-reuse follow the
cursor discipline, are strictly increasing, stay between the starting and
final cursors, and the pointer/offset lockstep and the reservation base are
maintained across the whole run. -/
theorem RunUploadOps_spec (ops : List UploadOp) :
    ∀ c : VKBufferCache, (∀ op ∈ ops, 0 < op.size ∧ 0 < op.alignment) →
    (RunUploadOps c ops).2.2 = false →
    OffsetsFollowCursor c.buffer_offset ops (RunUploadOps c ops).2.1 = true ∧
    (RunUploadOps c ops).2.1.Chain' (· < ·) ∧
    (∀ o ∈ (RunUploadOps c ops).2.1,
      c.buffer_offset ≤ o ∧ o < (RunUploadOps c ops).1.buffer_offset) ∧
    c.buffer_offset ≤ (RunUploadOps c ops).1.buffer_offset ∧
    (RunUploadOps c ops).1.buffer_offset_base = c.buffer_offset_base ∧
    (RunUploadOps c ops).1.buffer_ptr + c.buffer_offset
      = c.buffer_ptr + (RunUploadOps c ops).1.buffer_offset := by
  induction ops with
  | nil =>
    intro c _ _
    simp [RunUploadOps, OffsetsFollowCursor]
  | cons op ops ih =>
    intro c hpos hnohit
    have hsa : 0 < op.size ∧ 0 < op.alignment := hpos op (List.mem_cons_self _ _)
    have hrest : ∀ q ∈ ops, 0 < q.size ∧ 0 < q.alignment :=
      fun q hq => hpos q (List.mem_cons_of_mem _ hq)
    have hsplit : DedupHit c op = false
        ∧ (RunUploadOps (UploadOp.run c op).2 ops).2.2 = false := by
      have : (DedupHit c op || (RunUploadOps (UploadOp.run c op).2 ops).2.2) = false :=
        hnohit
      exact Bool.or_eq_false_iff.mp this
    obtain ⟨h1, h2, h3, h4⟩ := UploadOp_run_step c op hsa.2 hsplit.1
    obtain ⟨ih1, ih2, ih3, ih4, ih5, ih6⟩ := ih (UploadOp.run c op).2 hrest hsplit.2
    have hrun : RunUploadOps c (op :: ops)
        = ((RunUploadOps (UploadOp.run c op).2 ops).1,
           (UploadOp.run c op).1 :: (RunUploadOps (UploadOp.run c op).2 ops).2.1,
           DedupHit c op || (RunUploadOps (UploadOp.run c op).2 ops).2.2) := rfl
    rw [hrun]
    dsimp only
    have hbase_ge := AlignUp_ge c.buffer_offset op.alignment hsa.2
    refine ⟨?_, ?_, ?_, ?_, ?_, ?_⟩
    · simp only [OffsetsFollowCursor, h1, beq_self_eq_true, Bool.true_and]
      rw [← h1]
      have : (UploadOp.run c op).1 + op.size = (UploadOp.run c op).2.buffer_offset := by
        rw [h1, h2]
      rw [this]
      exact ih1
    · rw [List.chain'_cons']
      refine ⟨fun y hy => ?_, ih2⟩
      have hymem : y ∈ (RunUploadOps (UploadOp.run c op).2 ops).2.1 :=
        List.mem_of_mem_head? hy
      have := (ih3 y hymem).1
      rw [h1]
      omega
    · intro o ho
      rcases List.mem_cons.mp ho with h | h
      · subst h
        rw [h1]
        exact ⟨hbase_ge, by omega⟩
      · have := ih3 o h
        omega
    · omega
    · rw [ih5]; exact h3
    · omega

/-- C8 (amended): after a reservation, a sequence of uploads none of which
takes the dedup-reuse path of `UploadMemory` returns offsets that are
monotonically increasing, each the previous cursor rounded up to that
call's alignment, with the write pointer advanced in lockstep (content is
never written before its reported offset), and `Send` then publishes
exactly the bytes between the reservation base offset and the final
cursor. -/
theorem Streaming_offsets_after_Reserve (c0 : VKBufferCache)
    (new_ptr new_base : Nat) (invalidate : Bool) (ops : List UploadOp)
    (hpos : ∀ op ∈ ops, 0 < op.size ∧ 0 < op.alignment)
    (hnohit : (RunUploadOps (c0.Reserve new_ptr new_base invalidate) ops).2.2 = false) :
    OffsetsFollowCursor new_base ops
      (RunUploadOps (c0.Reserve new_ptr new_base invalidate) ops).2.1 = true ∧
    (RunUploadOps (c0.Reserve new_ptr new_base invalidate) ops).2.1.Chain' (· < ·) ∧
    (∀ o ∈ (RunUploadOps (c0.Reserve new_ptr new_base invalidate) ops).2.1,
      new_base ≤ o) ∧
    (RunUploadOps (c0.Reserve new_ptr new_base invalidate) ops).1.buffer_ptr + new_base
      = new_ptr
        + (RunUploadOps (c0.Reserve new_ptr new_base invalidate) ops).1.buffer_offset ∧
    (RunUploadOps (c0.Reserve new_ptr new_base invalidate) ops).1.Send
      = (RunUploadOps (c0.Reserve new_ptr new_base invalidate) ops).1.buffer_offset
          - new_base := by
  obtain ⟨h1, h2, h3, h4, h5, h6⟩ :=
    RunUploadOps_spec ops (c0.Reserve new_ptr new_base invalidate) hpos hnohit
  refine ⟨h1, h2, fun o ho => (h3 o ho).1, h6, ?_⟩
  simp only [VKBufferCache.Send]
  rw [h5]
  rfl

/-- C8 witness: a concrete reservation followed by one call of each upload
kind, none hitting the dedup cache. -/
theorem Streaming_offsets_after_Reserve_witness :
    (∀ op ∈ [UploadOp.host 10 4, UploadOp.reserveMem 5 8, UploadOp.guest 4096 2048 4 true],
      0 < op.size ∧ 0 < op.alignment) ∧
    (RunUploadOps (VKBufferCache.Reserve ⟨0, 0, 0, []⟩ 0 0 false)
      [UploadOp.host 10 4, UploadOp.reserveMem 5 8,
       UploadOp.guest 4096 2048 4 true]).2.2 = false ∧
    OffsetsFollowCursor 0
      [UploadOp.host 10 4, UploadOp.reserveMem 5 8, UploadOp.guest 4096 2048 4 true]
      (RunUploadOps (VKBufferCache.Reserve ⟨0, 0, 0, []⟩ 0 0 false)
        [UploadOp.host 10 4, UploadOp.reserveMem 5 8,
         UploadOp.guest 4096 2048 4 true]).2.1 = true ∧
    (RunUploadOps (VKBufferCache.Reserve ⟨0, 0, 0, []⟩ 0 0 false)
      [UploadOp.host 10 4, UploadOp.reserveMem 5 8,
       UploadOp.guest 4096 2048 4 true]).1.Send
      = (RunUploadOps (VKBufferCache.Reserve ⟨0, 0, 0, []⟩ 0 0 false)
          [UploadOp.host 10 4, UploadOp.reserveMem 5 8,
           UploadOp.guest 4096 2048 4 true]).1.buffer_offset - 0 :=
  ⟨by decide, by decide,
   (Streaming_offsets_after_Reserve ⟨0, 0, 0, []⟩ 0 0 false
     [UploadOp.host 10 4, UploadOp.reserveMem 5 8, UploadOp.guest 4096 2048 4 true]
     (by decide) (by decide)).1,
   (Streaming_offsets_after_Reserve ⟨0, 0, 0, []⟩ 0 0 false
     [UploadOp.host 10 4, UploadOp.reserveMem 5 8, UploadOp.guest 4096 2048 4 true]
     (by decide) (by decide)).2.2.2.2⟩

/-- C8 counterexample: after a reservation based at offset 5000, an
`UploadMemory` call that hits the dedup cache returns the stored offset 0 —
not the cursor rounded up to the alignment (5000) — and does not advance
the cursor, refuting the claim for sequences containing such calls. -/
theorem UploadMemory_hit_breaks_cursor_discipline :
    ((VKBufferCache.Reserve ⟨0, 0, 0, [⟨0, 4096, 4, 4096⟩]⟩ 5000 5000
        false).UploadMemory 4096 4096 4 true).1 = 0 ∧
    AlignUp (VKBufferCache.Reserve ⟨0, 0, 0, [⟨0, 4096, 4, 4096⟩]⟩ 5000 5000
        false).buffer_offset 4 = 5000 ∧
    ((VKBufferCache.Reserve ⟨0, 0, 0, [⟨0, 4096, 4, 4096⟩]⟩ 5000 5000
        false).UploadMemory 4096 4096 4 true).2.buffer_offset = 5000 := by
  decide

/-- C9 (amended): an upload is entered into the dedup cache only when
caching is requested and the size reaches the 2048-byte threshold; a cached
entry is reused (the stored offset returned, the state untouched) exactly
when the later request itself passes that threshold check and targets the
same guest address with a size no larger than the entry's and an equal
alignment; a qualifying request with a mismatching entry unregisters it and
re-uploads; a reservation that reports invalidation drops every cached
entry. -/
theorem UploadMemory_dedup (c : VKBufferCache) (a size al new_ptr new_base : Nat)
    (cache_in : Bool) (e : CachedBufferEntry) :
    (¬(cache_in = true ∧ 2048 ≤ size) →
      c.UploadMemory a size al cache_in = c.UploadFresh a size al false) ∧
    (cache_in = true → 2048 ≤ size → c.TryGet a = some e → size ≤ e.size →
      e.alignment = al → c.UploadMemory a size al cache_in = (e.offset, c)) ∧
    (cache_in = true → 2048 ≤ size → c.TryGet a = some e →
      ¬(size ≤ e.size ∧ e.alignment = al) →
      c.UploadMemory a size al cache_in =
        ({ c with entries := c.entries.eraseP (fun x => decide (x = e)) }).UploadFresh
          a size al true) ∧
    (cache_in = true → 2048 ≤ size → c.TryGet a = none →
      c.UploadMemory a size al cache_in = c.UploadFresh a size al true) ∧
    (c.UploadFresh a size al false).2.entries = c.entries ∧
    ((c.UploadFresh a size al true).2.entries
      = ⟨AlignUp c.buffer_offset al, size, al, a⟩ :: c.entries) ∧
    (c.Reserve new_ptr new_base true).entries = [] := by
  refine ⟨?_, ?_, ?_, ?_, rfl, rfl, rfl⟩
  · intro h
    have hc : (cache_in && decide (2048 ≤ size)) = false := by
      cases cache_in
      · rfl
      · have h2 : ¬(2048 ≤ size) := fun h2 => h ⟨rfl, h2⟩
        simpa using h2
    simp [VKBufferCache.UploadMemory, hc]
  · intro h1 h2 h3 h4 h5
    have hc : (cache_in && decide (2048 ≤ size)) = true := by simp [h1, h2]
    simp [VKBufferCache.UploadMemory, hc, h3, h4, h5]
  · intro h1 h2 h3 h4
    have hc : (cache_in && decide (2048 ≤ size)) = true := by simp [h1, h2]
    simp only [VKBufferCache.UploadMemory, hc, if_true, h3]
    rw [if_neg h4]
  · intro h1 h2 h3
    have hc : (cache_in && decide (2048 ≤ size)) = true := by simp [h1, h2]
    simp [VKBufferCache.UploadMemory, hc, h3]

/-- C9 witness: the amended characterization instantiated at a concrete
cache holding one entry. -/
theorem UploadMemory_dedup_witness :
    (¬((true : Bool) = true ∧ 2048 ≤ 4096) →
      exampleDedupState.UploadMemory 4096 4096 4 true
        = exampleDedupState.UploadFresh 4096 4096 4 false) ∧
    ((true : Bool) = true → 2048 ≤ 4096 →
      exampleDedupState.TryGet 4096 = some ⟨0, 4096, 4, 4096⟩ → 4096 ≤ 4096 →
      (4 : Nat) = 4 → exampleDedupState.UploadMemory 4096 4096 4 true
        = (0, exampleDedupState)) ∧
    ((true : Bool) = true → 2048 ≤ 4096 →
      exampleDedupState.TryGet 4096 = some ⟨0, 4096, 4, 4096⟩ →
      ¬((4096 : Nat) ≤ 4096 ∧ (4 : Nat) = 4) →
      exampleDedupState.UploadMemory 4096 4096 4 true =
        (VKBufferCache.UploadFresh
          { exampleDedupState with
            entries := exampleDedupState.entries.eraseP
              (fun x => decide (x = ⟨0, 4096, 4, 4096⟩)) }
          4096 4096 4 true)) ∧
    ((true : Bool) = true → 2048 ≤ 4096 → exampleDedupState.TryGet 4096 = none →
      exampleDedupState.UploadMemory 4096 4096 4 true
        = exampleDedupState.UploadFresh 4096 4096 4 true) ∧
    (exampleDedupState.UploadFresh 4096 4096 4 false).2.entries
      = exampleDedupState.entries ∧
    ((exampleDedupState.UploadFresh 4096 4096 4 true).2.entries
      = ⟨AlignUp exampleDedupState.buffer_offset 4, 4096, 4, 4096⟩
          :: exampleDedupState.entries) ∧
    (exampleDedupState.Reserve 0 0 true).entries = [] :=
  UploadMemory_dedup exampleDedupState 4096 4096 4 0 0 true ⟨0, 4096, 4, 4096⟩

/-- C9 counterexample: an entry for guest address 4096 of size 4096 with
alignment 4 is cached and no invalidation has happened; a later request for
the same address with size 100 (within the entry, equal alignment) is
claimed to reuse the entry, but the code performs a fresh copy at offset
5000 and advances the cursor, because the request itself is below the
2048-byte caching threshold. -/
theorem UploadMemory_no_reuse_below_threshold :
    exampleDedupState.TryGet 4096 = some ⟨0, 4096, 4, 4096⟩ ∧
    (100 : Nat) ≤ 4096 ∧
    (exampleDedupState.UploadMemory 4096 100 4 true).1 = 5000 ∧
    (exampleDedupState.UploadMemory 4096 100 4 true).2.buffer_offset = 5100 ∧
    (exampleDedupState.UploadMemory 4096 100 4 true).2 ≠ exampleDedupState := by
  decide

/-- The shader-address array computed by the stage loop does not depend on
the accumulated shaders or stage assignments, only on the incoming address
array (the registers drive everything else). -/
theorem GatherStages_shaders_congr (regs : MaxwellShaderRegs) (gpuToCpu : Nat → Nat)
    (readCode : Nat → List Nat) :
    ∀ fuel index acc acc', acc.shaders = acc'.shaders →
      (GatherStages regs gpuToCpu readCode fuel index acc).shaders
        = (GatherStages regs gpuToCpu readCode fuel index acc').shaders := by
  intro fuel
  induction fuel with
  | zero => intro index acc acc' h; exact h
  | succ fuel ih =>
    intro index acc acc' h
    simp only [GatherStages]
    by_cases hlt : index < 6
    · simp only [hlt, if_true]
      by_cases hen : (regs.shader_config index).enabled = false
      · simp only [hen, if_true]
        exact ih _ _ _ h
      · simp only [hen, if_false]
        by_cases h0 : index = 0
        · simp only [h0, if_true]
          apply ih
          simp [h]
        · simp only [h0, if_false]
          apply ih
          simp [h]
    · simp only [hlt, if_false]
      exact h

/-- The pipeline key computed by `GetPipeline` does not depend on the
cache state. -/
theorem PipelineKeyOf_cache_independent (regs : MaxwellShaderRegs) (gpuToCpu : Nat → Nat)
    (readCode : Nat → List Nat) (c c' : VKPipelineCache) (rp ff : Nat) :
    PipelineKeyOf regs gpuToCpu readCode c rp ff
      = PipelineKeyOf regs gpuToCpu readCode c' rp ff := by
  unfold PipelineKeyOf RunGatherStages
  rw [GatherStages_shaders_congr regs gpuToCpu readCode 6 0
    { shaders := List.replicate 6 0, stage_shaders := [], shader_cache := c.shader_cache }
    { shaders := List.replicate 6 0, stage_shaders := [], shader_cache := c'.shader_cache }
    rfl]

/-- `GetPipeline` written with its components named. -/
theorem GetPipeline_eq (c : VKPipelineCache) (regs : MaxwellShaderRegs)
    (gpuToCpu : Nat → Nat) (readCode : Nat → List Nat) (rp ff : Nat) :
    c.GetPipeline regs gpuToCpu readCode rp ff =
      match c.entries.find?
          (fun p => decide (p.1 = PipelineKeyOf regs gpuToCpu readCode c rp ff)) with
      | some p => (p.2, (RunGatherStages regs gpuToCpu readCode c).stage_shaders,
          { c with shader_cache := (RunGatherStages regs gpuToCpu readCode c).shader_cache })
      | none => (c.next_entry_id, (RunGatherStages regs gpuToCpu readCode c).stage_shaders,
          { shader_cache := (RunGatherStages regs gpuToCpu readCode c).shader_cache,
            entries := (PipelineKeyOf regs gpuToCpu readCode c rp ff, c.next_entry_id)
              :: c.entries,
            next_entry_id := c.next_entry_id + 1 }) := rfl

/-- The handle returned by `GetPipeline` is stored in the cache under the
computed key. -/
theorem GetPipeline_entry_mem (c : VKPipelineCache) (regs : MaxwellShaderRegs)
    (gpuToCpu : Nat → Nat) (readCode : Nat → List Nat) (rp ff : Nat) :
    (PipelineKeyOf regs gpuToCpu readCode c rp ff,
        (c.GetPipeline regs gpuToCpu readCode rp ff).1)
      ∈ (c.GetPipeline regs gpuToCpu readCode rp ff).2.2.entries := by
  rw [GetPipeline_eq]
  cases hfind : c.entries.find?
      (fun p => decide (p.1 = PipelineKeyOf regs gpuToCpu readCode c rp ff)) with
  | none => exact List.mem_cons_self _ _
  | some p =>
    have hmem := List.mem_of_find?_eq_some hfind
    have hp := List.find?_some hfind
    simp only [decide_eq_true_eq] at hp
    simpa [← hp] using hmem

/-- `GetPipeline` keeps every stored entry identity below the
fresh-identity counter. -/
theorem GetPipeline_WF (c : VKPipelineCache) (regs : MaxwellShaderRegs)
    (gpuToCpu : Nat → Nat) (readCode : Nat → List Nat) (rp ff : Nat) (hwf : c.WF) :
    (c.GetPipeline regs gpuToCpu readCode rp ff).2.2.WF := by
  rw [GetPipeline_eq]
  cases hfind : c.entries.find?
      (fun p => decide (p.1 = PipelineKeyOf regs gpuToCpu readCode c rp ff)) with
  | none =>
    intro p hp
    rcases List.mem_cons.mp hp with h | h
    · subst h
      exact Nat.lt_succ_self _
    · exact Nat.lt_succ_of_lt (hwf p h)
  | some q => exact hwf

/-- A `GetPipeline` call whose computed key is not yet cached creates a
fresh entry: the returned handle is the fresh-identity counter, distinct
from every stored handle, and the new key/handle pair is stored. -/
theorem GetPipeline_miss_fresh (S : VKPipelineCache) (regs2 : MaxwellShaderRegs)
    (g2 : Nat → Nat) (rc2 : Nat → List Nat) (rp2 ff2 : Nat) (hwf : S.WF)
    (hnot : PipelineKeyOf regs2 g2 rc2 S rp2 ff2 ∉ S.entries.map Prod.fst) :
    (S.GetPipeline regs2 g2 rc2 rp2 ff2).1 ∉ S.entries.map Prod.snd ∧
    (S.GetPipeline regs2 g2 rc2 rp2 ff2).1 = S.next_entry_id ∧
    (PipelineKeyOf regs2 g2 rc2 S rp2 ff2, (S.GetPipeline regs2 g2 rc2 rp2 ff2).1)
      ∈ (S.GetPipeline regs2 g2 rc2 rp2 ff2).2.2.entries := by
  have hf : S.entries.find?
      (fun p => decide (p.1 = PipelineKeyOf regs2 g2 rc2 S rp2 ff2)) = none := by
    rw [List.find?_eq_none]
    intro p hp
    simp only [decide_eq_true_eq]
    intro hkey
    exact hnot (hkey ▸ List.mem_map_of_mem Prod.fst hp)
  have e1 : S.GetPipeline regs2 g2 rc2 rp2 ff2
      = (S.next_entry_id, (RunGatherStages regs2 g2 rc2 S).stage_shaders,
         { shader_cache := (RunGatherStages regs2 g2 rc2 S).shader_cache,
           entries := (PipelineKeyOf regs2 g2 rc2 S rp2 ff2, S.next_entry_id) :: S.entries,
           next_entry_id := S.next_entry_id + 1 }) := by
    rw [GetPipeline_eq, hf]
  rw [e1]
  refine ⟨?_, rfl, List.mem_cons_self _ _⟩
  intro hmem
  rcases List.mem_map.mp hmem with ⟨p, hp, hpe⟩
  have := hwf p hp
  omega

/-- C5: with an unchanged register snapshot, repeating a `GetPipeline` call
with byte-identical renderpass and fixed-function inputs returns the same
memoized handle and adds no entry; a call whose computed key differs in any
field (and is not already cached) misses, creating a fresh entry whose
handle is distinct from every existing one — in particular from the first
call's. -/
theorem GetPipeline_memoization (regs regs2 : MaxwellShaderRegs)
    (gpuToCpu g2 : Nat → Nat) (readCode rc2 : Nat → List Nat)
    (c : VKPipelineCache) (rp ff rp2 ff2 : Nat) (hwf : c.WF) :
    ((c.GetPipeline regs gpuToCpu readCode rp ff).2.2.GetPipeline
        regs gpuToCpu readCode rp ff).1
      = (c.GetPipeline regs gpuToCpu readCode rp ff).1 ∧
    ((c.GetPipeline regs gpuToCpu readCode rp ff).2.2.GetPipeline
        regs gpuToCpu readCode rp ff).2.2.entries
      = (c.GetPipeline regs gpuToCpu readCode rp ff).2.2.entries ∧
    (PipelineKeyOf regs2 g2 rc2 (c.GetPipeline regs gpuToCpu readCode rp ff).2.2 rp2 ff2
        ∉ ((c.GetPipeline regs gpuToCpu readCode rp ff).2.2.entries).map Prod.fst →
      ((c.GetPipeline regs gpuToCpu readCode rp ff).2.2.GetPipeline regs2 g2 rc2 rp2 ff2).1
          ∉ ((c.GetPipeline regs gpuToCpu readCode rp ff).2.2.entries).map Prod.snd ∧
      ((c.GetPipeline regs gpuToCpu readCode rp ff).2.2.GetPipeline regs2 g2 rc2 rp2 ff2).1
          ≠ (c.GetPipeline regs gpuToCpu readCode rp ff).1 ∧
      (PipelineKeyOf regs2 g2 rc2 (c.GetPipeline regs gpuToCpu readCode rp ff).2.2 rp2 ff2,
          ((c.GetPipeline regs gpuToCpu readCode rp ff).2.2.GetPipeline
              regs2 g2 rc2 rp2 ff2).1)
        ∈ ((c.GetPipeline regs gpuToCpu readCode rp ff).2.2.GetPipeline
            regs2 g2 rc2 rp2 ff2).2.2.entries) := by
  have hkeymem := GetPipeline_entry_mem c regs gpuToCpu readCode rp ff
  have hwf1 := GetPipeline_WF c regs gpuToCpu readCode rp ff hwf
  have hrepeat : ((c.GetPipeline regs gpuToCpu readCode rp ff).2.2.GetPipeline
        regs gpuToCpu readCode rp ff).1
      = (c.GetPipeline regs gpuToCpu readCode rp ff).1 ∧
      ((c.GetPipeline regs gpuToCpu readCode rp ff).2.2.GetPipeline
        regs gpuToCpu readCode rp ff).2.2.entries
      = (c.GetPipeline regs gpuToCpu readCode rp ff).2.2.entries := by
    cases hf : c.entries.find?
        (fun p => decide (p.1 = PipelineKeyOf regs gpuToCpu readCode c rp ff)) with
    | some p =>
      have e1 : c.GetPipeline regs gpuToCpu readCode rp ff
          = (p.2, (RunGatherStages regs gpuToCpu readCode c).stage_shaders,
             { c with shader_cache := (RunGatherStages regs gpuToCpu readCode c).shader_cache }) := by
        rw [GetPipeline_eq, hf]
      rw [e1, GetPipeline_eq,
        PipelineKeyOf_cache_independent regs gpuToCpu readCode _ c rp ff]
      dsimp only
      rw [hf]
      exact ⟨rfl, rfl⟩
    | none =>
      have e1 : c.GetPipeline regs gpuToCpu readCode rp ff
          = (c.next_entry_id, (RunGatherStages regs gpuToCpu readCode c).stage_shaders,
             { shader_cache := (RunGatherStages regs gpuToCpu readCode c).shader_cache,
               entries := (PipelineKeyOf regs gpuToCpu readCode c rp ff, c.next_entry_id)
                 :: c.entries,
               next_entry_id := c.next_entry_id + 1 }) := by
        rw [GetPipeline_eq, hf]
      rw [e1, GetPipeline_eq,
        PipelineKeyOf_cache_independent regs gpuToCpu readCode _ c rp ff]
      dsimp only
      rw [List.find?_cons_of_pos _ (by simp)]
      exact ⟨rfl, rfl⟩
  refine ⟨hrepeat.1, hrepeat.2, fun hkey2 => ?_⟩
  have hmiss := GetPipeline_miss_fresh (c.GetPipeline regs gpuToCpu readCode rp ff).2.2
    regs2 g2 rc2 rp2 ff2 hwf1 hkey2
  refine ⟨hmiss.1, ?_, hmiss.2.2⟩
  intro heq
  apply hmiss.1
  rw [heq]
  exact List.mem_map_of_mem Prod.snd hkeymem

/-- C5 witness: on an empty cache with every stage disabled, the repeated
call returns the handle of the first call. -/
theorem GetPipeline_memoization_witness :
    exampleEmptyPipelineCache.WF ∧
    ((exampleEmptyPipelineCache.GetPipeline exampleDisabledRegs id (fun a => [a]) 1 2).2.2.GetPipeline
        exampleDisabledRegs id (fun a => [a]) 1 2).1
      = (exampleEmptyPipelineCache.GetPipeline exampleDisabledRegs id (fun a => [a]) 1 2).1 :=
  have hwf : exampleEmptyPipelineCache.WF := fun p hp => absurd hp (List.not_mem_nil p)
  ⟨hwf, (GetPipeline_memoization exampleDisabledRegs exampleDisabledRegs id id
    (fun a => [a]) (fun a => [a]) exampleEmptyPipelineCache 1 2 1 3 hwf).1⟩

/-- Once the stage loop has passed the two vertex-program indices, it never
touches the first two key slots again, and every further stage assignment
targets slot 1 or higher. -/
theorem GatherStages_from_two (regs : MaxwellShaderRegs) (gpuToCpu : Nat → Nat)
    (readCode : Nat → List Nat) :
    ∀ fuel index acc, 2 ≤ index →
      (GatherStages regs gpuToCpu readCode fuel index acc).shaders[0]? = acc.shaders[0]? ∧
      (GatherStages regs gpuToCpu readCode fuel index acc).shaders[1]? = acc.shaders[1]? ∧
      ∃ extra, (GatherStages regs gpuToCpu readCode fuel index acc).stage_shaders
          = acc.stage_shaders ++ extra ∧ ∀ q ∈ extra, 1 ≤ q.1 := by
  intro fuel
  induction fuel with
  | zero =>
    intro index acc h
    refine ⟨rfl, rfl, [], ?_, ?_⟩ <;> simp [GatherStages]
  | succ fuel ih =>
    intro index acc h2
    simp only [GatherStages]
    by_cases hlt : index < 6
    · rw [if_pos hlt]
      by_cases hen : (regs.shader_config index).enabled = false
      · rw [if_pos hen]
        exact ih (index + 1) acc (by omega)
      · rw [if_neg hen]
        have h0 : ¬(index = 0) := by omega
        rw [if_neg h0]
        obtain ⟨ha, hb, extra, hext, hge⟩ := ih (index + 1)
          { shaders := acc.shaders.set index (GetShaderAddress regs gpuToCpu index),
            stage_shaders := acc.stage_shaders
              ++ [((if index = 0 then 0 else index - 1),
                  match acc.shader_cache.find?
                      (fun s => decide (s.addr = GetShaderAddress regs gpuToCpu index)) with
                  | some s => s
                  | none => CachedShader.make regs gpuToCpu readCode
                      (GetShaderAddress regs gpuToCpu index) index)],
            shader_cache := match acc.shader_cache.find?
                (fun s => decide (s.addr = GetShaderAddress regs gpuToCpu index)) with
              | some _ => acc.shader_cache
              | none => (match acc.shader_cache.find?
                    (fun s => decide (s.addr = GetShaderAddress regs gpuToCpu index)) with
                  | some s => s
                  | none => CachedShader.make regs gpuToCpu readCode
                      (GetShaderAddress regs gpuToCpu index) index) :: acc.shader_cache }
          (by omega)
        refine ⟨ha.trans (List.getElem?_set_ne (by omega)),
                hb.trans (List.getElem?_set_ne (by omega)), ?_⟩
        refine ⟨((if index = 0 then 0 else index - 1),
            match acc.shader_cache.find?
                (fun s => decide (s.addr = GetShaderAddress regs gpuToCpu index)) with
            | some s => s
            | none => CachedShader.make regs gpuToCpu readCode
                (GetShaderAddress regs gpuToCpu index) index) :: extra,
          hext.trans (by simp [List.append_assoc]), ?_⟩
        intro q hq
        rcases List.mem_cons.mp hq with h | h
        · subst h
          show 1 ≤ (if index = 0 then 0 else index - 1)
          rw [if_neg h0]
          omega
        · exact hge q h
    · rw [if_neg hlt]
      refine ⟨rfl, rfl, [], ?_, ?_⟩ <;> simp

/-- C2 (amended): when VertexA is enabled and no shader is yet cached at
its address, the stage loop fuses the dual vertex shaders into the single
stage-0 slot — the created shader's setup holds VertexA's program code with
VertexB's program code attached via `SetProgramB` — skips the VertexB
iteration (every later stage assignment targets slot 1 or higher), and the
key's shader-address array holds VertexA's address at position 0 while
position 1 keeps its zero-initialised value: the key does not reference
VertexB's address. -/
theorem GetPipeline_dual_vertex_fusion (regs : MaxwellShaderRegs) (gpuToCpu : Nat → Nat)
    (readCode : Nat → List Nat) (c : VKPipelineCache)
    (h0 : (regs.shader_config 0).enabled = true)
    (hmiss : c.shader_cache.find?
      (fun s => decide (s.addr = GetShaderAddress regs gpuToCpu 0)) = none) :
    (RunGatherStages regs gpuToCpu readCode c).shaders[0]?
        = some (GetShaderAddress regs gpuToCpu 0) ∧
    (RunGatherStages regs gpuToCpu readCode c).shaders[1]? = some 0 ∧
    (RunGatherStages regs gpuToCpu readCode c).stage_shaders.head?
        = some (0, CachedShader.make regs gpuToCpu readCode
            (GetShaderAddress regs gpuToCpu 0) 0) ∧
    (∀ q ∈ (RunGatherStages regs gpuToCpu readCode c).stage_shaders.tail, 1 ≤ q.1) ∧
    (CachedShader.make regs gpuToCpu readCode
        (GetShaderAddress regs gpuToCpu 0) 0).setup.program_code
      = readCode (GetShaderAddress regs gpuToCpu 0) ∧
    (CachedShader.make regs gpuToCpu readCode
        (GetShaderAddress regs gpuToCpu 0) 0).setup.program_code_b
      = some (readCode (GetShaderAddress regs gpuToCpu 1)) := by
  have hen : ¬((regs.shader_config 0).enabled = false) := by simp [h0]
  have hstep : RunGatherStages regs gpuToCpu readCode c
      = GatherStages regs gpuToCpu readCode 5 2
        { shaders := (List.replicate 6 0).set 0 (GetShaderAddress regs gpuToCpu 0),
          stage_shaders := [] ++ [(0, CachedShader.make regs gpuToCpu readCode
            (GetShaderAddress regs gpuToCpu 0) 0)],
          shader_cache := CachedShader.make regs gpuToCpu readCode
            (GetShaderAddress regs gpuToCpu 0) 0 :: c.shader_cache } := by
    unfold RunGatherStages
    rw [GatherStages]
    rw [if_pos (by omega : (0 : Nat) < 6), if_neg hen]
    dsimp only
    rw [hmiss]
    rfl
  rw [hstep]
  obtain ⟨ha, hb, extra, hext, hge⟩ :=
    GatherStages_from_two regs gpuToCpu readCode 5 2 _ (by omega)
  refine ⟨ha.trans rfl, hb.trans rfl, ?_, ?_, rfl, rfl⟩
  · rw [hext]
    rfl
  · rw [hext]
    intro q hq
    exact hge q hq

/-- C2 counterexample: with VertexA active (its code at 0x100) and VertexB
at 0x200, the computed pipeline key's shader-address tuple does not contain
VertexB's address — the claim that the key references both vertex shader
addresses fails. -/
theorem PipelineKey_missing_vertexB_address :
    (exampleDualVertexRegs.shader_config 0).enabled = true ∧
    GetShaderAddress exampleDualVertexRegs id 1 = 0x200 ∧
    (PipelineKeyOf exampleDualVertexRegs id (fun a => [a])
        exampleEmptyPipelineCache 3 4).shaders.contains 0x200 = false := by
  decide

/-- C2 witness: the fusion characterization at the concrete dual-vertex
register snapshot. -/
theorem GetPipeline_dual_vertex_fusion_witness :
    (exampleDualVertexRegs.shader_config 0).enabled = true ∧
    (exampleEmptyPipelineCache.shader_cache.find?
      (fun s => decide (s.addr = GetShaderAddress exampleDualVertexRegs id 0))) = none ∧
    (RunGatherStages exampleDualVertexRegs id (fun a => [a])
        exampleEmptyPipelineCache).shaders[0]? = some 0x100 ∧
    (RunGatherStages exampleDualVertexRegs id (fun a => [a])
        exampleEmptyPipelineCache).shaders[1]? = some 0 :=
  ⟨by decide, by decide,
   (GetPipeline_dual_vertex_fusion exampleDualVertexRegs id (fun a => [a])
     exampleEmptyPipelineCache (by decide) (by decide)).1,
   (GetPipeline_dual_vertex_fusion exampleDualVertexRegs id (fun a => [a])
     exampleEmptyPipelineCache (by decide) (by decide)).2.1⟩

/-- Disjoint surfaces never report an overlap with each other's byte
range, in either orientation. -/
theorem SurfacesDisjoint_no_overlap (a b : CachedSurface) (hd : SurfacesDisjoint a b) :
    b.IsOverlap a.params.addr a.params.GetSizeInBytes = false ∧
    a.IsOverlap b.params.addr b.params.GetSizeInBytes = false := by
  unfold SurfacesDisjoint at hd
  rcases not_and_or.mp hd with h | h <;>
    constructor <;>
    · simp only [CachedSurface.IsOverlap, Bool.and_eq_false_iff, decide_eq_false_iff_not]
      tauto

/-- Among pairwise-disjoint registered surfaces, the only surface
overlapping an exact-match request is the matched surface itself. -/
theorem GetOverlappingSurfaces_exact_match (params : SurfaceParams)
    (surf : CachedSurface) (hparams : surf.params = params)
    (hsz : 0 < params.GetSizeInBytes) :
    ∀ l : List CachedSurface, l.Pairwise SurfacesDisjoint → surf ∈ l →
      l.filter (fun srf => srf.IsOverlap params.addr params.GetSizeInBytes) = [surf] := by
  have hself : surf.IsOverlap params.addr params.GetSizeInBytes = true := by
    simp only [CachedSurface.IsOverlap, hparams, Bool.and_eq_true, decide_eq_true_eq]
    omega
  intro l
  induction l with
  | nil => intro _ hmem; cases hmem
  | cons x rest ih =>
    intro hpw hmem
    have hx : ∀ b ∈ rest, SurfacesDisjoint x b := (List.pairwise_cons.mp hpw).1
    have hrest : rest.Pairwise SurfacesDisjoint := (List.pairwise_cons.mp hpw).2
    rcases List.mem_cons.mp hmem with h | h
    · subst h
      rw [List.filter_cons, if_pos hself]
      have : rest.filter (fun srf => srf.IsOverlap params.addr params.GetSizeInBytes) = [] := by
        apply List.filter_eq_nil_iff.mpr
        intro b hb
        have := (SurfacesDisjoint_no_overlap surf b (hx b hb)).1
        rw [hparams] at this
        simp [this]
      rw [this]
    · have hxno : x.IsOverlap params.addr params.GetSizeInBytes = false := by
        have := (SurfacesDisjoint_no_overlap x surf (hx surf h)).2
        rw [hparams] at this
        exact this
      rw [List.filter_cons, if_neg (by simp [hxno])]
      exact ih hrest h

/-- C3: a `GetView` request whose parameters exactly match a registered
surface (in a pairwise-disjoint registered set) returns a view into that
same surface, leaves the cache state untouched and creates nothing. -/
theorem GetView_exact_match_stable (s : VKTextureCache) (params : SurfaceParams)
    (preserve_contents : Bool) (surf : CachedSurface)
    (hpw : s.registered_surfaces.Pairwise SurfacesDisjoint)
    (hmem : surf ∈ s.registered_surfaces)
    (hparams : surf.params = params)
    (hsz : 0 < params.GetSizeInBytes) :
    s.GetView params preserve_contents = (⟨surf.id⟩, s, []) := by
  have hov : s.GetOverlappingSurfaces params = [surf] :=
    GetOverlappingSurfaces_exact_match params surf hparams hsz
      s.registered_surfaces hpw hmem
  unfold VKTextureCache.GetView
  rw [hov]
  simp [FamiliarFastPath, CachedSurface.IsFamiliar, CachedSurface.TryGetView, hparams]

/-- C3 witness: re-requesting the registered surface's exact parameters
returns surface 7 and changes nothing. -/
theorem GetView_exact_match_stable_witness :
    exampleTextureCache.registered_surfaces.Pairwise SurfacesDisjoint ∧
    (⟨7, exampleRegisteredParams⟩ : CachedSurface) ∈ exampleTextureCache.registered_surfaces ∧
    (⟨7, exampleRegisteredParams⟩ : CachedSurface).params = exampleRegisteredParams ∧
    0 < exampleRegisteredParams.GetSizeInBytes ∧
    exampleTextureCache.GetView exampleRegisteredParams true
      = (⟨7⟩, exampleTextureCache, []) :=
  ⟨by simp [exampleTextureCache], by simp [exampleTextureCache], rfl, by decide,
   GetView_exact_match_stable exampleTextureCache exampleRegisteredParams true
     ⟨7, exampleRegisteredParams⟩ (by simp [exampleTextureCache])
     (by simp [exampleTextureCache]) rfl (by decide)⟩

/-- Unregistering surfaces never touches the fresh-identity counter. -/
theorem foldl_Unregister_next_id (l : List CachedSurface) :
    ∀ s : VKTextureCache, (l.foldl (fun st o => st.Unregister o) s).next_id = s.next_id := by
  induction l with
  | nil => intro s; rfl
  | cons x rest ih => intro s; exact ih (s.Unregister x)

/-- The flush/unregister event block has two events per overlap. -/
theorem flatMap_pair_length (l : List CachedSurface) :
    (l.flatMap (fun o => [CacheEvent.flush o.id, CacheEvent.unregister o.id])).length
      = 2 * l.length := by
  induction l with
  | nil => rfl
  | cons x rest ih =>
    simp only [List.flatMap_cons, List.length_append, List.length_cons, ih]
    simp
    omega

/-- Every overlap contributes an adjacent flush/unregister pair to the
event block, at an index within the block. -/
theorem flatMap_pair_get (o : CachedSurface) :
    ∀ l : List CachedSurface, o ∈ l →
      ∃ k, 2 * k + 1 < 2 * l.length ∧
        (l.flatMap (fun x => [CacheEvent.flush x.id, CacheEvent.unregister x.id])).get? (2 * k)
          = some (CacheEvent.flush o.id) ∧
        (l.flatMap (fun x => [CacheEvent.flush x.id, CacheEvent.unregister x.id])).get?
            (2 * k + 1)
          = some (CacheEvent.unregister o.id) := by
  intro l
  induction l with
  | nil => intro hm; cases hm
  | cons x rest ih =>
    intro hm
    rcases List.mem_cons.mp hm with h | h
    · subst h
      exact ⟨0, by simp [Nat.mul_add], rfl, rfl⟩
    · obtain ⟨k, hb, h1, h2⟩ := ih h
      refine ⟨k + 1, by simp [Nat.mul_add] at hb ⊢; omega, ?_, ?_⟩
      · have e : 2 * (k + 1) = (2 * k + 1) + 1 := by omega
        rw [e]
        simp only [List.flatMap_cons, List.cons_append, List.singleton_append,
          List.get?_cons_succ]
        exact h1
      · have e : 2 * (k + 1) + 1 = ((2 * k + 1) + 1) + 1 := by omega
        rw [e]
        simp only [List.flatMap_cons, List.cons_append, List.singleton_append,
          List.get?_cons_succ]
        exact h2

/-- C1: a `GetView` request that overlaps registered surfaces and misses
the single-familiar-overlap fast path flushes and unregisters every
overlapping surface (flush immediately before its unregister) strictly
before the new surface covering the request is created, and registers the
new surface afterwards. -/
theorem GetView_flush_before_create (s : VKTextureCache) (params : SurfaceParams)
    (preserve_contents : Bool)
    (hne : s.GetOverlappingSurfaces params ≠ [])
    (hslow : FamiliarFastPath (s.GetOverlappingSurfaces params) params = none) :
    (⟨s.next_id, params⟩ : CachedSurface)
        ∈ (s.GetView params preserve_contents).2.1.registered_surfaces ∧
    ∃ cidx, ((s.GetView params preserve_contents).2.2).get? cidx
        = some (CacheEvent.create s.next_id) ∧
      (∀ o ∈ s.GetOverlappingSurfaces params, ∃ fi ui, fi < ui ∧ ui < cidx ∧
        ((s.GetView params preserve_contents).2.2).get? fi = some (CacheEvent.flush o.id) ∧
        ((s.GetView params preserve_contents).2.2).get? ui
          = some (CacheEvent.unregister o.id)) ∧
      ∃ ridx, cidx < ridx ∧
        ((s.GetView params preserve_contents).2.2).get? ridx
          = some (CacheEvent.register s.next_id) := by
  obtain ⟨x, xs, hL⟩ : ∃ x xs, s.GetOverlappingSurfaces params = x :: xs := by
    cases h : s.GetOverlappingSurfaces params with
    | nil => exact absurd h hne
    | cons a b => exact ⟨a, b, rfl⟩
  rw [hL] at hslow
  have hnext : ((x :: xs).foldl (fun st o => st.Unregister o) s).next_id = s.next_id :=
    foldl_Unregister_next_id (x :: xs) s
  have hview : s.GetView params preserve_contents
      = (⟨s.next_id⟩,
         { registered_surfaces :=
             ((x :: xs).foldl (fun st o => st.Unregister o) s).registered_surfaces
               ++ [⟨s.next_id, params⟩],
           next_id := s.next_id + 1 },
         (x :: xs).flatMap (fun o => [CacheEvent.flush o.id, CacheEvent.unregister o.id])
           ++ (CacheEvent.create s.next_id ::
              ((if preserve_contents then [CacheEvent.load s.next_id] else [])
                ++ [CacheEvent.register s.next_id]))) := by
    unfold VKTextureCache.GetView
    rw [hL]
    rw [if_neg (by simp)]
    rw [hslow]
    dsimp only [VKTextureCache.LoadView]
    rw [hnext]
  rw [hview, hL]
  dsimp only
  have hlen := flatMap_pair_length (x :: xs)
  refine ⟨by simp, 2 * (x :: xs).length, ?_, ?_, ?_⟩
  · rw [List.get?_append_right (by omega)]
    rw [hlen]
    simp
  · intro o ho
    obtain ⟨k, hb, h1, h2⟩ := flatMap_pair_get o (x :: xs) ho
    refine ⟨2 * k, 2 * k + 1, by omega, by omega, ?_, ?_⟩
    · rw [List.get?_append (by omega)]
      exact h1
    · rw [List.get?_append (by omega)]
      exact h2
  · cases preserve_contents with
    | false =>
      refine ⟨2 * (x :: xs).length + 1, by omega, ?_⟩
      rw [List.get?_append_right (by omega), hlen]
      have e : 2 * (x :: xs).length + 1 - 2 * (x :: xs).length = 1 := by omega
      rw [e]
      rfl
    | true =>
      refine ⟨2 * (x :: xs).length + 2, by omega, ?_⟩
      rw [List.get?_append_right (by omega), hlen]
      have e : 2 * (x :: xs).length + 2 - 2 * (x :: xs).length = 2 := by omega
      rw [e]
      rfl

/-- C1 witness: a request overlapping two registered surfaces flushes and
unregisters both before creating and registering the covering surface. -/
theorem GetView_flush_before_create_witness :
    exampleTwoSurfaceCache.GetOverlappingSurfaces exampleOverlapRequest ≠ [] ∧
    FamiliarFastPath (exampleTwoSurfaceCache.GetOverlappingSurfaces exampleOverlapRequest)
      exampleOverlapRequest = none ∧
    ((⟨exampleTwoSurfaceCache.next_id, exampleOverlapRequest⟩ : CachedSurface)
        ∈ (exampleTwoSurfaceCache.GetView exampleOverlapRequest true).2.1.registered_surfaces ∧
     ∃ cidx, ((exampleTwoSurfaceCache.GetView exampleOverlapRequest true).2.2).get? cidx
        = some (CacheEvent.create exampleTwoSurfaceCache.next_id) ∧
      (∀ o ∈ exampleTwoSurfaceCache.GetOverlappingSurfaces exampleOverlapRequest,
        ∃ fi ui, fi < ui ∧ ui < cidx ∧
        ((exampleTwoSurfaceCache.GetView exampleOverlapRequest true).2.2).get? fi
          = some (CacheEvent.flush o.id) ∧
        ((exampleTwoSurfaceCache.GetView exampleOverlapRequest true).2.2).get? ui
          = some (CacheEvent.unregister o.id)) ∧
      ∃ ridx, cidx < ridx ∧
        ((exampleTwoSurfaceCache.GetView exampleOverlapRequest true).2.2).get? ridx
          = some (CacheEvent.register exampleTwoSurfaceCache.next_id)) :=
  ⟨by decide, by decide,
   GetView_flush_before_create exampleTwoSurfaceCache exampleOverlapRequest true
     (by decide) (by decide)⟩

end YuzuVK
